import Mathlib

/-!
Verification of the element-symbol-pair parser and electronegativity-difference
classifier of `src/main.py` (functions `_get_electronegativity`,
`_split_elements_for_en`, and `ENCalculatorScreen.calculate_en_difference`).

Python strings are modelled as Lean `String`s (lists of characters); the Python
float electronegativity values and thresholds are modelled as exact rationals
(every comparison performed by the program is against the decimal literals
`0.4` and `1.7`, and all table values have at most two decimal digits, so the
order relations used by the code coincide with the rational ones).
-/

/-- Model of the character class stripped by Python `str.strip()`
(ASCII whitespace: space, tab, newline, carriage return, vertical tab,
form feed). -/
def pyIsSpace (c : Char) : Bool :=
  c == ' ' || c == '\t' || c == '\n' || c == '\r' || c == '\x0b' || c == '\x0c'

/-- Model of Python `str.strip()`: drop `pyIsSpace` characters from both ends. -/
def pyStrip (s : String) : String :=
  (List.rdropWhile pyIsSpace (List.dropWhile pyIsSpace s.data)).asString

/-- Model of Python's per-character alphabetic test in the ASCII range
(`str.isalpha` restricted to ASCII, which is all the program feeds it). -/
def pyIsAlpha (c : Char) : Bool :=
  decide ((65 ≤ c.toNat ∧ c.toNat ≤ 90) ∨ (97 ≤ c.toNat ∧ c.toNat ≤ 122))

/-- Model of Python `str.isalpha()`: nonempty and all characters alphabetic. -/
def pyStrIsAlpha (s : String) : Bool :=
  !s.data.isEmpty && s.data.all pyIsAlpha

/-- Model of Python `str.capitalize()`: first character uppercased, the rest
lowercased. -/
def pyCapitalize (s : String) : String :=
  match s.data with
  | [] => ""
  | c :: cs => (c.toUpper :: cs.map Char.toLower).asString

/-- Python slice `s[a:b]` (for the in-range indices the program uses). -/
def strSlice (s : String) (a b : Nat) : String :=
  ((s.data.drop a).take (b - a)).asString

/-- The external periodic-table data source: maps a canonically capitalized
symbol to `none` when the symbol is not an element (the `KeyError` branch of
`_get_electronegativity`), to `some none` when the element exists but has no
electronegativity value (`el.eleneg is None`), and to `some (some v)` when the
element has electronegativity `v`. -/
abbrev ENTable := String → Option (Option ℚ)

/-- Model of `_get_electronegativity` (src/main.py lines 26-41): reject empty
or non-alphabetic input, capitalize the symbol, look it up in the element
table, and return its electronegativity value (which may itself be absent). -/
def _get_electronegativity (lookup : ENTable) (element_symbol : String) : Option ℚ :=
  if !pyStrIsAlpha element_symbol then none
  else
    match lookup (pyCapitalize element_symbol) with
    | none => none
    | some en => en

/-- The distinct user-input failures surfaced by the program.  Each constructor
corresponds to one of the distinct `ValueError` messages raised in
`_split_elements_for_en` / `calculate_en_difference`, plus `EmptyInput` for the
caller's empty-input early return. -/
inductive ResolveError
  /-- Caller's early return: "Please enter two element symbols." (lines 202-204). -/
  | EmptyInput
  /-- "Input must contain one or two adjacent element symbols ..." (lines 52-53). -/
  | InputLength
  /-- "Could not identify a valid first element symbol ..." (lines 71-72). -/
  | NoFirstElement
  /-- "Input contains only one element symbol. ..." (lines 76-77). -/
  | OnlyOneElement
  /-- Defensive check: "Found first element, but no characters remaining ..." (lines 82-83). -/
  | NoRemainingForSecond
  /-- "Found '...', but could not identify a valid second element symbol ..." (lines 96-97). -/
  | NoSecondElement
  /-- "Input contains extra characters after the two expected element symbols." (lines 100-101). -/
  | TrailingCharacters
  /-- "Electronegativity data unavailable for: ..." (lines 228-232). -/
  | MissingENData (symbols : List String)
deriving DecidableEq

/-- First-element search of `_split_elements_for_en` (lines 58-69): try the
two-character slice first (when two characters are available), then the
one-character slice; a candidate is kept iff `_get_electronegativity` returns a
value for it.  Returns the raw matched slice and the updated position. -/
def firstToken (lookup : ENTable) (text : String) : Option (String × Nat) :=
  if 2 ≤ text.length ∧ _get_electronegativity lookup (strSlice text 0 2) ≠ none then
    some (strSlice text 0 2, 2)
  else if 1 ≤ text.length ∧ _get_electronegativity lookup (strSlice text 0 1) ≠ none then
    some (strSlice text 0 1, 1)
  else none

/-- Second-element search of `_split_elements_for_en` (lines 85-94), starting
at position `p1`: again two characters before one. -/
def secondToken (lookup : ENTable) (text : String) (p1 : Nat) : Option (String × Nat) :=
  if p1 + 2 ≤ text.length ∧ _get_electronegativity lookup (strSlice text p1 (p1 + 2)) ≠ none then
    some (strSlice text p1 (p1 + 2), p1 + 2)
  else if p1 + 1 ≤ text.length ∧ _get_electronegativity lookup (strSlice text p1 (p1 + 1)) ≠ none then
    some (strSlice text p1 (p1 + 1), p1 + 1)
  else none

/-- Model of `_split_elements_for_en` (src/main.py lines 43-103): strip the
input, reject lengths outside 1..4, find the first element (2 letters before
1), require characters to remain, find the second element immediately after,
and require the whole string to be consumed.  The returned symbols are
capitalized (lines 73 and 98). -/
def _split_elements_for_en (lookup : ENTable) (compound_str : String) :
    Except ResolveError (String × String) :=
  let text := pyStrip compound_str
  let n := text.length
  if n < 1 ∨ 4 < n then .error .InputLength
  else
    match firstToken lookup text with
    | none => .error .NoFirstElement
    | some (first_el, p1) =>
      if p1 = n then .error .OnlyOneElement
      else if n - p1 = 0 then .error .NoRemainingForSecond
      else
        match secondToken lookup text p1 with
        | none => .error .NoSecondElement
        | some (second_el, p2) =>
          if p2 ≠ n then .error .TrailingCharacters
          else .ok (pyCapitalize first_el, pyCapitalize second_el)

/-- The symbol-pair resolution phase of
`ENCalculatorScreen.calculate_en_difference` (src/main.py lines 200-216): strip
the raw input, return `EmptyInput` on an empty string, force the pair
`("C", "O")` on the exact, case-sensitive input `"CO"`, and otherwise delegate
to `_split_elements_for_en`.  This is the `resolve` operation of the spec. -/
def resolve (lookup : ENTable) (input : String) : Except ResolveError (String × String) :=
  let input_text := pyStrip input
  if input_text = "" then .error .EmptyInput
  else if input_text = "CO" then .ok ("C", "O")
  else _split_elements_for_en lookup input_text

/-- The three bond classifications produced by the program. -/
inductive BondType
  | NonpolarCovalent
  | PolarCovalent
  | Ionic
deriving DecidableEq

/-- Model of the threshold classifier (src/main.py lines 236-238):
`en_difference <= 0.4` is nonpolar covalent, `elif en_difference < 1.7` polar
covalent, otherwise ionic. -/
def classify (en_difference : ℚ) : BondType :=
  if en_difference ≤ 0.4 then .NonpolarCovalent
  else if en_difference < 1.7 then .PolarCovalent
  else .Ionic

/-- Model of the full `calculate_en_difference` computation (src/main.py lines
200-238): resolve the two symbols, look up both electronegativities, fail with
`MissingENData` listing the symbols whose value is missing (first symbol first,
lines 228-232), and otherwise return the absolute difference together with its
classification. -/
def calculate_en_difference (lookup : ENTable) (input : String) :
    Except ResolveError (ℚ × BondType) :=
  match resolve lookup input with
  | .error e => .error e
  | .ok (el1_sym, el2_sym) =>
    match _get_electronegativity lookup el1_sym, _get_electronegativity lookup el2_sym with
    | some en1, some en2 => .ok (|en1 - en2|, classify |en1 - en2|)
    | none, some _ => .error (.MissingENData [el1_sym])
    | some _, none => .error (.MissingENData [el2_sym])
    | none, none => .error (.MissingENData [el1_sym, el2_sym])

/-- Modelled from the spec: the external element-data collaborator
(`molmass.elements.ELEMENTS` with its `eleneg` attribute), which is a
third-party library and not part of this repository's sources.  Per the spec,
an electronegativity value is "a floating-point number in range roughly
[0.7, 4.0], or absent (some elements lack published values)"; symbols carry
their standard Pauling electronegativities, the noble gases lack one, and
unknown strings are not in the table.  Only canonically capitalized symbols are
keys, matching the capitalized lookup done by `_get_electronegativity`. -/
def molmassData : List (String × Option ℚ) :=
  [("H", some 2.2), ("He", none),
   ("Li", some 0.98), ("Be", some 1.57), ("B", some 2.04), ("C", some 2.55),
   ("N", some 3.04), ("O", some 3.44), ("F", some 3.98), ("Ne", none),
   ("Na", some 0.93), ("Mg", some 1.31), ("Al", some 1.61), ("Si", some 1.9),
   ("P", some 2.19), ("S", some 2.58), ("Cl", some 3.16), ("Ar", none),
   ("K", some 0.82), ("Ca", some 1.0), ("Fe", some 1.83), ("Co", some 1.88),
   ("Ni", some 1.91), ("Cu", some 1.9), ("Zn", some 1.65), ("Br", some 2.96),
   ("Rb", some 0.82), ("Sr", some 0.95), ("I", some 2.66), ("Cs", some 0.79),
   ("Ba", some 0.89), ("Hf", some 1.3), ("W", some 2.36), ("Au", some 2.54),
   ("Hg", some 2.0), ("Pb", some 2.33)]

/-- Lookup into the modelled element table. -/
def molmassLookup (symbol : String) : Option (Option ℚ) :=
  molmassData.lookup symbol

/-- Written from the spec's words (spec section 4.1, steps 2-3): "at each
position, attempt a 2-character symbol lookup before a 1-character symbol
lookup", a candidate being accepted only when `_get_electronegativity` has a
value for it.  Returns the length of the token found at `pos`. -/
def specToken (lookup : ENTable) (text : String) (pos : Nat) : Option Nat :=
  if pos + 2 ≤ text.length ∧ _get_electronegativity lookup (strSlice text pos (pos + 2)) ≠ none then
    some 2
  else if pos + 1 ≤ text.length ∧ _get_electronegativity lookup (strSlice text pos (pos + 1)) ≠ none then
    some 1
  else none

/-- Written from the spec's words (spec section 4.1, steps 1-5): greedy
longest-match tokenization of an already-trimmed string into exactly two
tokens, with the spec's failure taxonomy. -/
def greedyResolveSpec (lookup : ENTable) (text : String) : Except ResolveError (String × String) :=
  if text.length = 0 then .error .EmptyInput
  else
    match specToken lookup text 0 with
    | none => .error .NoFirstElement
    | some k1 =>
      if k1 = text.length then .error .OnlyOneElement
      else
        match specToken lookup text k1 with
        | none => .error .NoSecondElement
        | some k2 =>
          if k1 + k2 = text.length then
            .ok (pyCapitalize (strSlice text 0 k1), pyCapitalize (strSlice text k1 (k1 + k2)))
          else .error .TrailingCharacters

/-! ### Character-level facts about `toUpper`, `toLower`, `pyIsAlpha` -/

theorem char_toNat_ofNat_of_lt {n : Nat} (h : n < 55296) : (Char.ofNat n).toNat = n := by
  unfold Char.ofNat
  rw [dif_pos (Or.inl h)]
  rfl

theorem uint32_eq_of_toNat_eq {a b : UInt32} (h : a.toNat = b.toNat) : a = b := by
  cases a
  cases b
  simp only [UInt32.toNat] at h
  congr 1
  exact BitVec.eq_of_toNat_eq h

theorem char_eq_of_toNat_eq {c d : Char} (h : c.toNat = d.toNat) : c = d :=
  Char.ext (uint32_eq_of_toNat_eq h)

theorem toUpper_eq (c : Char) :
    c.toUpper = if 97 ≤ c.toNat ∧ c.toNat ≤ 122 then Char.ofNat (c.toNat - 32) else c := rfl

theorem toLower_eq (c : Char) :
    c.toLower = if 65 ≤ c.toNat ∧ c.toNat ≤ 90 then Char.ofNat (c.toNat + 32) else c := rfl

theorem toNat_toUpper (c : Char) :
    c.toUpper.toNat = if 97 ≤ c.toNat ∧ c.toNat ≤ 122 then c.toNat - 32 else c.toNat := by
  rw [toUpper_eq]
  split_ifs with h
  · exact char_toNat_ofNat_of_lt (by omega)
  · rfl

theorem toNat_toLower (c : Char) :
    c.toLower.toNat = if 65 ≤ c.toNat ∧ c.toNat ≤ 90 then c.toNat + 32 else c.toNat := by
  rw [toLower_eq]
  split_ifs with h
  · exact char_toNat_ofNat_of_lt (by omega)
  · rfl

theorem toUpper_toUpper (c : Char) : c.toUpper.toUpper = c.toUpper := by
  apply char_eq_of_toNat_eq
  simp only [toNat_toUpper]
  split_ifs <;> omega

theorem toLower_toLower (c : Char) : c.toLower.toLower = c.toLower := by
  apply char_eq_of_toNat_eq
  simp only [toNat_toLower]
  split_ifs <;> omega

theorem pyIsAlpha_toUpper (c : Char) : pyIsAlpha c.toUpper = pyIsAlpha c := by
  simp only [pyIsAlpha, toNat_toUpper]
  rw [decide_eq_decide]
  split_ifs <;> omega

theorem pyIsAlpha_toLower (c : Char) : pyIsAlpha c.toLower = pyIsAlpha c := by
  simp only [pyIsAlpha, toNat_toLower]
  rw [decide_eq_decide]
  split_ifs <;> omega

/-! ### String-level facts about `pyCapitalize`, `pyStrip`, `_get_electronegativity` -/

theorem data_asString (l : List Char) : (List.asString l).data = l := rfl

theorem pyCapitalize_nil (s : String) (h : s.data = []) : pyCapitalize s = "" := by
  unfold pyCapitalize
  rw [h]

theorem pyCapitalize_cons (s : String) (c : Char) (cs : List Char) (h : s.data = c :: cs) :
    pyCapitalize s = List.asString (c.toUpper :: cs.map Char.toLower) := by
  unfold pyCapitalize
  rw [h]

theorem pyCapitalize_idem (s : String) : pyCapitalize (pyCapitalize s) = pyCapitalize s := by
  cases h : s.data with
  | nil =>
    rw [pyCapitalize_nil s h]
    rfl
  | cons c cs =>
    rw [pyCapitalize_cons s c cs h]
    rw [pyCapitalize_cons _ c.toUpper (cs.map Char.toLower) (data_asString _)]
    rw [toUpper_toUpper, List.map_map]
    have hcomp : Char.toLower ∘ Char.toLower = Char.toLower := funext toLower_toLower
    rw [hcomp]

theorem pyStrIsAlpha_pyCapitalize (s : String) :
    pyStrIsAlpha (pyCapitalize s) = pyStrIsAlpha s := by
  cases h : s.data with
  | nil =>
    rw [pyCapitalize_nil s h]
    unfold pyStrIsAlpha
    rw [h]
  | cons c cs =>
    rw [pyCapitalize_cons s c cs h]
    unfold pyStrIsAlpha
    rw [h, data_asString]
    simp only [List.isEmpty_cons, List.all_cons, List.all_map, Bool.not_false]
    rw [pyIsAlpha_toUpper]
    have hcomp : (pyIsAlpha ∘ Char.toLower) = pyIsAlpha := funext pyIsAlpha_toLower
    rw [hcomp]

theorem getEN_pyCapitalize (lookup : ENTable) (s : String) :
    _get_electronegativity lookup (pyCapitalize s) = _get_electronegativity lookup s := by
  unfold _get_electronegativity
  rw [pyStrIsAlpha_pyCapitalize, pyCapitalize_idem]

theorem head_dropWhile_false {α : Type} (p : α → Bool) (l : List α) (y : α) (ys : List α)
    (h : List.dropWhile p l = y :: ys) : p y = false := by
  induction l with
  | nil => simp [List.dropWhile] at h
  | cons c cs ih =>
    by_cases hc : p c
    · rw [List.dropWhile_cons_of_pos hc] at h
      exact ih h
    · rw [List.dropWhile_cons_of_neg hc] at h
      injection h with h1 h2
      subst h1
      exact Bool.not_eq_true _ ▸ (by simpa using hc)

theorem dropWhile_rdropWhile_dropWhile {α : Type} (p : α → Bool) (l : List α) :
    List.dropWhile p (List.rdropWhile p (List.dropWhile p l)) =
      List.rdropWhile p (List.dropWhile p l) := by
  cases hY : List.dropWhile p l with
  | nil => simp [List.rdropWhile]
  | cons y ys =>
    have hy : p y = false := head_dropWhile_false p l y ys hY
    cases hX : List.rdropWhile p (y :: ys) with
    | nil => rfl
    | cons x xs =>
      have hpre : (x :: xs) <+: (y :: ys) := hX ▸ List.rdropWhile_prefix p (y :: ys)
      obtain ⟨t, ht⟩ := hpre
      have hx : x = y := by
        rw [List.cons_append] at ht
        injection ht
      rw [List.dropWhile_cons_of_neg]
      rw [hx]
      simp [hy]

theorem pyStrip_idem (s : String) : pyStrip (pyStrip s) = pyStrip s := by
  show (List.rdropWhile pyIsSpace (List.dropWhile pyIsSpace
      (List.rdropWhile pyIsSpace (List.dropWhile pyIsSpace s.data)))).asString =
    (List.rdropWhile pyIsSpace (List.dropWhile pyIsSpace s.data)).asString
  rw [dropWhile_rdropWhile_dropWhile, List.rdropWhile_idempotent]

/-! ### Parser characterization -/

theorem firstToken_eq_specToken (lookup : ENTable) (t : String) :
    firstToken lookup t = (specToken lookup t 0).map (fun k => (strSlice t 0 k, k)) := by
  unfold firstToken specToken
  simp only [Nat.zero_add]
  split_ifs <;> rfl

theorem secondToken_eq_specToken (lookup : ENTable) (t : String) (p : Nat) :
    secondToken lookup t p = (specToken lookup t p).map (fun k => (strSlice t p (p + k), p + k)) := by
  unfold secondToken specToken
  split_ifs <;> rfl

theorem specToken_some (lookup : ENTable) (t : String) (pos k : Nat)
    (h : specToken lookup t pos = some k) :
    (k = 1 ∨ k = 2) ∧ pos + k ≤ t.length ∧
      _get_electronegativity lookup (strSlice t pos (pos + k)) ≠ none := by
  unfold specToken at h
  split_ifs at h with hc1 hc2
  · injection h with hk
    subst hk
    exact ⟨Or.inr rfl, hc1.1, hc1.2⟩
  · injection h with hk
    subst hk
    exact ⟨Or.inl rfl, hc2.1, hc2.2⟩

theorem split_eq_greedySpec (lookup : ENTable) (s : String)
    (h1 : 1 ≤ (pyStrip s).length) (h2 : (pyStrip s).length ≤ 4) :
    _split_elements_for_en lookup s = greedyResolveSpec lookup (pyStrip s) := by
  unfold _split_elements_for_en greedyResolveSpec
  rw [if_neg (by omega), if_neg (by omega)]
  rw [firstToken_eq_specToken]
  cases hk1 : specToken lookup (pyStrip s) 0 with
  | none => rfl
  | some k1 =>
    obtain ⟨hor, hle, -⟩ := specToken_some lookup (pyStrip s) 0 k1 hk1
    rw [Nat.zero_add] at hle
    simp only [Option.map_some']
    by_cases hone : k1 = (pyStrip s).length
    · rw [if_pos hone, if_pos hone]
    · rw [if_neg hone, if_neg hone,
        if_neg (show ¬((pyStrip s).length - k1 = 0) by omega)]
      rw [secondToken_eq_specToken]
      cases hk2 : specToken lookup (pyStrip s) k1 with
      | none => rfl
      | some k2 =>
        simp only [Option.map_some']
        by_cases hall : k1 + k2 = (pyStrip s).length
        · rw [if_neg (show ¬(k1 + k2 ≠ (pyStrip s).length) from fun hc => hc hall),
            if_pos hall]
        · rw [if_pos hall, if_neg hall]

theorem split_ok_imp (lookup : ENTable) (s a b : String)
    (h : _split_elements_for_en lookup s = .ok (a, b)) :
    _get_electronegativity lookup a ≠ none ∧ _get_electronegativity lookup b ≠ none := by
  unfold _split_elements_for_en at h
  dsimp only at h
  rw [firstToken_eq_specToken] at h
  split_ifs at h
  cases hk1 : specToken lookup (pyStrip s) 0 with
  | none => rw [hk1] at h; simp at h
  | some k1 =>
    rw [hk1] at h
    simp only [Option.map_some'] at h
    obtain ⟨-, -, hen1⟩ := specToken_some lookup (pyStrip s) 0 k1 hk1
    split_ifs at h
    rw [secondToken_eq_specToken] at h
    cases hk2 : specToken lookup (pyStrip s) k1 with
    | none => rw [hk2] at h; simp at h
    | some k2 =>
      rw [hk2] at h
      simp only [Option.map_some'] at h
      obtain ⟨-, -, hen2⟩ := specToken_some lookup (pyStrip s) k1 k2 hk2
      split_ifs at h
      injection h with hpair
      injection hpair with ha hb
      subst ha
      subst hb
      rw [Nat.zero_add] at hen1
      constructor
      · rw [getEN_pyCapitalize]
        exact hen1
      · rw [getEN_pyCapitalize]
        exact hen2

theorem split_not_missing (lookup : ENTable) (s : String) (l : List String) :
    _split_elements_for_en lookup s ≠ .error (.MissingENData l) := by
  unfold _split_elements_for_en
  dsimp only
  intro h
  by_cases hlen : (pyStrip s).length < 1 ∨ 4 < (pyStrip s).length
  · rw [if_pos hlen] at h
    simp at h
  · rw [if_neg hlen] at h
    cases hk1 : firstToken lookup (pyStrip s) with
    | none => rw [hk1] at h; simp at h
    | some fp =>
      obtain ⟨f, p1⟩ := fp
      rw [hk1] at h
      dsimp only at h
      by_cases hone : p1 = (pyStrip s).length
      · rw [if_pos hone] at h
        simp at h
      · rw [if_neg hone] at h
        by_cases hrem : (pyStrip s).length - p1 = 0
        · rw [if_pos hrem] at h
          simp at h
        · rw [if_neg hrem] at h
          cases hk2 : secondToken lookup (pyStrip s) p1 with
          | none => rw [hk2] at h; simp at h
          | some sp =>
            obtain ⟨g, p2⟩ := sp
            rw [hk2] at h
            dsimp only at h
            by_cases htr : p2 ≠ (pyStrip s).length
            · rw [if_pos htr] at h
              simp at h
            · rw [if_neg htr] at h
              simp at h

theorem resolve_ok_imp (lookup : ENTable) (s x y : String)
    (h : resolve lookup s = .ok (x, y)) :
    (pyStrip s = "CO" ∧ x = "C" ∧ y = "O") ∨
      _split_elements_for_en lookup (pyStrip s) = .ok (x, y) := by
  unfold resolve at h
  dsimp only at h
  by_cases h0 : pyStrip s = ""
  · rw [if_pos h0] at h
    simp at h
  · rw [if_neg h0] at h
    by_cases hco : pyStrip s = "CO"
    · rw [if_pos hco] at h
      injection h with hpair
      injection hpair with hx hy
      exact Or.inl ⟨hco, hx.symm, hy.symm⟩
    · rw [if_neg hco] at h
      exact Or.inr h

theorem resolve_error_imp (lookup : ENTable) (s : String) (e : ResolveError)
    (h : resolve lookup s = .error e) :
    e = .EmptyInput ∨ _split_elements_for_en lookup (pyStrip s) = .error e := by
  unfold resolve at h
  dsimp only at h
  by_cases h0 : pyStrip s = ""
  · rw [if_pos h0] at h
    injection h with he
    exact Or.inl he.symm
  · rw [if_neg h0] at h
    by_cases hco : pyStrip s = "CO"
    · rw [if_pos hco] at h
      simp at h
    · rw [if_neg hco] at h
      exact Or.inr h

/-! ### Claim theorems -/

/-- C1: the spec (and the code's own docstring and placeholder text, which give
"HF" as a canonical two-element input) expects `resolve("HF") = Ok("H", "F")`;
the code instead capitalizes the two-character candidate, so "HF" matches the
element Hafnium (which has electronegativity data), consumes the whole string,
and `resolve` fails with the only-one-element error. -/
theorem C1_hf_code_behavior :
    resolve molmassLookup "HF" = .error .OnlyOneElement ∧
    pyCapitalize "HF" = "Hf" ∧
    _get_electronegativity molmassLookup "HF" = some 1.3 :=
  ⟨rfl, rfl, rfl⟩

/-- C2 counterexample: `resolve` does constrain the input length, and on
"HeNeXx" (trimmed length 6) it fails with the input-length error raised before
any tokenization, not with `TrailingCharacters`. -/
theorem C2_counterexample :
    resolve molmassLookup "HeNeXx" = .error .InputLength ∧
    ResolveError.InputLength ≠ ResolveError.TrailingCharacters :=
  ⟨rfl, by decide⟩

/-- C2 amended: the resolver rejects every input whose trimmed length exceeds 4
with the input-length error, before any tokenization; in particular "HeNeXx"
fails that way, and a three-token input that fits within the length bound, such
as "HHHH", does consume two tokens and then fail with `TrailingCharacters`. -/
theorem C2_amended_length_behavior (lookup : ENTable) (s : String)
    (h : 4 < (pyStrip s).length) :
    _split_elements_for_en lookup s = .error .InputLength ∧
    resolve molmassLookup "HeNeXx" = .error .InputLength ∧
    resolve molmassLookup "HHHH" = .error .TrailingCharacters := by
  refine ⟨?_, rfl, rfl⟩
  unfold _split_elements_for_en
  dsimp only
  rw [if_pos (Or.inr h)]

theorem C2_amended_witness :
    _split_elements_for_en molmassLookup "HeNeXx" = .error .InputLength ∧
    resolve molmassLookup "HeNeXx" = .error .InputLength ∧
    resolve molmassLookup "HHHH" = .error .TrailingCharacters :=
  C2_amended_length_behavior molmassLookup "HeNeXx" (by decide)

/-- C3: the exact, case-sensitive input "CO" is forced to `Ok("C", "O")` by a
pre-check placed before the general resolver (for any element table), while the
general resolver on "CO" would resolve it to the single element Cobalt and fail
with `OnlyOneElement`; every other trimmed nonempty input (such as "Cs") is
passed to the general resolver unchanged, so the override generalizes to no
other input. -/
theorem C3_co_special_case (lookup : ENTable) (t : String)
    (h1 : pyStrip t = t) (h2 : t ≠ "") (h3 : t ≠ "CO") :
    resolve lookup "CO" = .ok ("C", "O") ∧
    _split_elements_for_en molmassLookup "CO" = .error .OnlyOneElement ∧
    resolve lookup t = _split_elements_for_en lookup t := by
  refine ⟨?_, rfl, ?_⟩
  · unfold resolve
    dsimp only
    rw [show pyStrip "CO" = "CO" from rfl]
    rw [if_neg (by decide), if_pos rfl]
  · unfold resolve
    dsimp only
    rw [h1, if_neg h2, if_neg h3]

theorem C3_witness :
    resolve molmassLookup "CO" = .ok ("C", "O") ∧
    _split_elements_for_en molmassLookup "CO" = .error .OnlyOneElement ∧
    resolve molmassLookup "Cs" = _split_elements_for_en molmassLookup "Cs" :=
  C3_co_special_case molmassLookup "Cs" rfl (by decide) (by decide)

/-- C4: on "Co" (uppercase C, lowercase o) the case-sensitive "CO" override
does not apply; "Co" is a valid 2-letter symbol with electronegativity data
(Cobalt, 1.88), it consumes the whole string, and `resolve` fails with
`OnlyOneElement`. -/
theorem C4_co_lowercase_only_one_element :
    resolve molmassLookup "Co" = .error .OnlyOneElement ∧
    _get_electronegativity molmassLookup "Co" = some 1.88 :=
  ⟨rfl, rfl⟩

/-- C5: the classifier is a total function of the (rational-valued) difference
with the exact boundary semantics: at most 0.4 is nonpolar covalent (0.4
included), strictly between 0.4 and 1.7 is polar covalent, and at least 1.7 is
ionic (1.7 included); in particular at 0.4, 0.41, 1.69 and 1.7. -/
theorem C5_classify_boundaries (d : ℚ) :
    (d ≤ 0.4 → classify d = .NonpolarCovalent) ∧
    (0.4 < d ∧ d < 1.7 → classify d = .PolarCovalent) ∧
    (1.7 ≤ d → classify d = .Ionic) ∧
    classify 0.4 = .NonpolarCovalent ∧ classify 0.41 = .PolarCovalent ∧
    classify 1.69 = .PolarCovalent ∧ classify 1.7 = .Ionic := by
  refine ⟨?_, ?_, ?_, ?_, ?_, ?_, ?_⟩
  · intro h
    unfold classify
    rw [if_pos h]
  · rintro ⟨ha, hb⟩
    unfold classify
    rw [if_neg (not_le.mpr ha), if_pos hb]
  · intro h
    unfold classify
    rw [if_neg (not_le.mpr (lt_of_lt_of_le (by norm_num) h)), if_neg (not_lt.mpr h)]
  · unfold classify
    norm_num
  · unfold classify
    norm_num
  · unfold classify
    norm_num
  · unfold classify
    norm_num

theorem C5_witness : (1.7 : ℚ) ≤ 1.7 ∧ classify 1.7 = BondType.Ionic :=
  ⟨le_refl _, (C5_classify_boundaries 1.7).2.2.1 (le_refl _)⟩

/-- C6: the resolver coincides with the greedy left-to-right tokenizer written
from the spec (2-character lookup attempted before 1-character at each
position, a candidate accepted only when `_get_electronegativity` has a value
for it) on every input within the resolver's length bound; and an element
present in the table but with no electronegativity value is treated by
`_get_electronegativity` exactly as not found. -/
theorem C6_greedy_tokenization (lookup : ENTable) (s sym : String)
    (h1 : 1 ≤ (pyStrip s).length) (h2 : (pyStrip s).length ≤ 4)
    (hsym : lookup (pyCapitalize sym) = some none) :
    _split_elements_for_en lookup s = greedyResolveSpec lookup (pyStrip s) ∧
    _get_electronegativity lookup sym = none := by
  refine ⟨split_eq_greedySpec lookup s h1 h2, ?_⟩
  unfold _get_electronegativity
  by_cases ha : pyStrIsAlpha sym
  · rw [if_neg (by simp [ha]), hsym]
  · rw [if_pos (by simp [ha])]

theorem C6_witness :
    _split_elements_for_en molmassLookup "NaCl" =
      greedyResolveSpec molmassLookup (pyStrip "NaCl") ∧
    _get_electronegativity molmassLookup "He" = none :=
  C6_greedy_tokenization molmassLookup "NaCl" "He" (by decide) (by decide) rfl

/-- C7: for any two symbols resolved to electronegativity values, classifying
the absolute difference is symmetric in the two values. -/
theorem C7_classify_symmetric (lookup : ENTable) (x y : String) (v w : ℚ)
    (hx : _get_electronegativity lookup x = some v)
    (hy : _get_electronegativity lookup y = some w) :
    classify |v - w| = classify |w - v| := by
  rw [abs_sub_comm]

theorem C7_witness : classify |(2.2 : ℚ) - 3.98| = classify |(3.98 : ℚ) - 2.2| :=
  C7_classify_symmetric molmassLookup "H" "F" 2.2 3.98 rfl rfl

/-- C8: every input that strips to the empty string fails with `EmptyInput`
(the caller's early return), a failure distinct from each other reason in the
taxonomy. -/
theorem C8_empty_input (lookup : ENTable) (s : String) (syms : List String)
    (h : pyStrip s = "") :
    resolve lookup s = .error .EmptyInput ∧
    ResolveError.EmptyInput ≠ ResolveError.NoFirstElement ∧
    ResolveError.EmptyInput ≠ ResolveError.OnlyOneElement ∧
    ResolveError.EmptyInput ≠ ResolveError.NoSecondElement ∧
    ResolveError.EmptyInput ≠ ResolveError.TrailingCharacters ∧
    ResolveError.EmptyInput ≠ ResolveError.MissingENData syms := by
  refine ⟨?_, by decide, by decide, by decide, by decide, by simp⟩
  unfold resolve
  dsimp only
  rw [h, if_pos rfl]

theorem C8_witness :
    resolve molmassLookup "   " = .error .EmptyInput ∧
    ResolveError.EmptyInput ≠ ResolveError.NoFirstElement ∧
    ResolveError.EmptyInput ≠ ResolveError.OnlyOneElement ∧
    ResolveError.EmptyInput ≠ ResolveError.NoSecondElement ∧
    ResolveError.EmptyInput ≠ ResolveError.TrailingCharacters ∧
    ResolveError.EmptyInput ≠ ResolveError.MissingENData ["Na"] :=
  C8_empty_input molmassLookup "   " ["Na"] rfl

/-- C9: whenever the general resolver succeeds, both returned symbols have a
defined electronegativity value; the special-cased pair ("C", "O") has
electronegativity data as well; consequently the caller's
`MissingENData` branch is unreachable on every input. -/
theorem C9_missing_en_unreachable (lookup : ENTable) (s a b s2 : String) (l : List String)
    (h : _split_elements_for_en lookup s = .ok (a, b)) :
    (_get_electronegativity lookup a ≠ none ∧ _get_electronegativity lookup b ≠ none) ∧
    _get_electronegativity molmassLookup "C" = some 2.55 ∧
    _get_electronegativity molmassLookup "O" = some 3.44 ∧
    calculate_en_difference molmassLookup s2 ≠ .error (.MissingENData l) := by
  refine ⟨split_ok_imp lookup s a b h, rfl, rfl, ?_⟩
  intro hcon
  unfold calculate_en_difference at hcon
  cases hr : resolve molmassLookup s2 with
  | error e =>
    rw [hr] at hcon
    dsimp only at hcon
    injection hcon with he
    rcases resolve_error_imp molmassLookup s2 e hr with h1 | h1
    · rw [he] at h1
      simp at h1
    · rw [he] at h1
      exact split_not_missing molmassLookup (pyStrip s2) l h1
  | ok p =>
    obtain ⟨x, y⟩ := p
    rw [hr] at hcon
    dsimp only at hcon
    rcases resolve_ok_imp molmassLookup s2 x y hr with ⟨-, hx, hy⟩ | hsp
    · subst hx
      subst hy
      rw [show _get_electronegativity molmassLookup "C" = some 2.55 from rfl,
          show _get_electronegativity molmassLookup "O" = some 3.44 from rfl] at hcon
      simp at hcon
    · obtain ⟨ha, hb⟩ := split_ok_imp molmassLookup (pyStrip s2) x y hsp
      obtain ⟨va, hva⟩ := Option.ne_none_iff_exists'.mp ha
      obtain ⟨vb, hvb⟩ := Option.ne_none_iff_exists'.mp hb
      rw [hva, hvb] at hcon
      simp at hcon

theorem C9_witness :
    (_get_electronegativity molmassLookup "Na" ≠ none ∧
      _get_electronegativity molmassLookup "Cl" ≠ none) ∧
    _get_electronegativity molmassLookup "C" = some 2.55 ∧
    _get_electronegativity molmassLookup "O" = some 3.44 ∧
    calculate_en_difference molmassLookup "HF" ≠ .error (.MissingENData ["Na"]) :=
  C9_missing_en_unreachable molmassLookup "NaCl" "Na" "Cl" "HF" ["Na"] rfl

/-- C10: every input whose stripped length exceeds 4 is rejected by the general
resolver with the input-length error, before any tokenization; consequently no
such input resolves successfully (the "CO" override only matches a length-2
string). -/
theorem C10_length_bound (lookup : ENTable) (s : String) (p : String × String)
    (h : 4 < (pyStrip s).length) :
    _split_elements_for_en lookup s = .error .InputLength ∧
    resolve lookup s ≠ .ok p := by
  constructor
  · unfold _split_elements_for_en
    dsimp only
    rw [if_pos (Or.inr h)]
  · intro hcon
    obtain ⟨x, y⟩ := p
    rcases resolve_ok_imp lookup s x y hcon with ⟨hco, -, -⟩ | hsp
    · rw [hco] at h
      exact absurd h (by decide)
    · have hh : _split_elements_for_en lookup (pyStrip s) = .error .InputLength := by
        unfold _split_elements_for_en
        dsimp only
        rw [pyStrip_idem]
        rw [if_pos (Or.inr h)]
      rw [hh] at hsp
      simp at hsp

theorem C10_witness :
    _split_elements_for_en molmassLookup "Hello" = .error .InputLength ∧
    resolve molmassLookup "Hello" ≠ .ok ("Na", "Cl") :=
  C10_length_bound molmassLookup "Hello" ("Na", "Cl") (by decide)
